import Mathlib

/-!
Shallow embedding of `src/analyze_conjugations.py` from the Verbo repository.

Strings are modelled as `List Char` (Python strings are sequences of Unicode
code points).  Python's `str.lower` is modelled on the alphabet the program
works over: ASCII letters plus the accented Italian vowels à è é ì ò ù and
their uppercase forms; every other character is left unchanged.  Python's
`str.strip()` is modelled as removal of leading/trailing ASCII whitespace.
-/

namespace Verbo

/-- A Python string, as a list of Unicode code points. -/
abbrev Str := List Char

/-- The conjugation group returned by `get_verb_root`. -/
inductive Group where
  | ARE
  | ERE
  | IRE
  | OTHER
deriving DecidableEq, Repr

/-- Python `s.endswith(suffix)`. -/
def endsWith (l suffix : Str) : Bool :=
  suffix.isSuffixOf l

/-- Embedding of `get_verb_root` (analyze_conjugations.py, lines 19-30): root
and group of an infinitive.  Python `infinitive[:-3]` is `take (length - 3)`. -/
def get_verb_root (infinitive : Str) : Str × Group :=
  if endsWith infinitive ("are".toList) then
    (infinitive.take (infinitive.length - 3), Group.ARE)
  else if endsWith infinitive ("ere".toList) then
    (infinitive.take (infinitive.length - 3), Group.ERE)
  else if endsWith infinitive ("ire".toList) then
    (infinitive.take (infinitive.length - 3), Group.IRE)
  else
    (infinitive, Group.OTHER)

/-- Embedding of `get_regular_presente` (lines 32-40). -/
def get_regular_presente (root : Str) (group : Group) : List Str :=
  match group with
  | Group.ARE =>
      [root ++ ("o".toList), root ++ ("i".toList), root ++ ("a".toList),
       root ++ ("iamo".toList), root ++ ("ate".toList), root ++ ("ano".toList)]
  | Group.ERE =>
      [root ++ ("o".toList), root ++ ("i".toList), root ++ ("e".toList),
       root ++ ("iamo".toList), root ++ ("ete".toList), root ++ ("ono".toList)]
  | Group.IRE =>
      [root ++ ("o".toList), root ++ ("i".toList), root ++ ("e".toList),
       root ++ ("iamo".toList), root ++ ("ite".toList), root ++ ("ono".toList)]
  | Group.OTHER => []

/-- Embedding of `get_regular_imperfetto` (lines 42-50). -/
def get_regular_imperfetto (root : Str) (group : Group) : List Str :=
  match group with
  | Group.ARE =>
      [root ++ ("avo".toList), root ++ ("avi".toList), root ++ ("ava".toList),
       root ++ ("avamo".toList), root ++ ("avate".toList), root ++ ("avano".toList)]
  | Group.ERE =>
      [root ++ ("evo".toList), root ++ ("evi".toList), root ++ ("eva".toList),
       root ++ ("evamo".toList), root ++ ("evate".toList), root ++ ("evano".toList)]
  | Group.IRE =>
      [root ++ ("ivo".toList), root ++ ("ivi".toList), root ++ ("iva".toList),
       root ++ ("ivamo".toList), root ++ ("ivate".toList), root ++ ("ivano".toList)]
  | Group.OTHER => []

/-- Embedding of `get_regular_futuro` (lines 52-63).  Python `infinitive[:-1]` is
`dropLast`, `infinitive[:-3]` is `take (length - 3)`. -/
def get_regular_futuro (infinitive : Str) : List Str :=
  let stem : Str :=
    if endsWith infinitive ("are".toList) then
      infinitive.take (infinitive.length - 3) ++ ("er".toList)
    else
      infinitive.dropLast
  [stem ++ ("ò".toList), stem ++ ("ai".toList), stem ++ ("à".toList),
   stem ++ ("emo".toList), stem ++ ("ete".toList), stem ++ ("anno".toList)]

/-- Embedding of `get_regular_passato_remoto` (lines 65-74). -/
def get_regular_passato_remoto (root : Str) (group : Group) : List Str :=
  match group with
  | Group.ARE =>
      [root ++ ("ai".toList), root ++ ("asti".toList), root ++ ("ò".toList),
       root ++ ("ammo".toList), root ++ ("aste".toList), root ++ ("arono".toList)]
  | Group.ERE =>
      [root ++ ("ei".toList), root ++ ("esti".toList), root ++ ("é".toList),
       root ++ ("emmo".toList), root ++ ("este".toList), root ++ ("erono".toList)]
  | Group.IRE =>
      [root ++ ("ii".toList), root ++ ("isti".toList), root ++ ("ì".toList),
       root ++ ("immo".toList), root ++ ("iste".toList), root ++ ("irono".toList)]
  | Group.OTHER => []

/-- Python `str.lower`, modelled on the program's alphabet: ASCII uppercase
letters (code points 65-90) map to their lowercase forms, the uppercase
accented vowels À È É Ì Ò Ù map to à è é ì ò ù, everything else is fixed. -/
def pyLowerChar (c : Char) : Char :=
  if 65 ≤ c.toNat ∧ c.toNat ≤ 90 then Char.ofNat (c.toNat + 32)
  else if c = 'À' then 'à'
  else if c = 'È' then 'è'
  else if c = 'É' then 'é'
  else if c = 'Ì' then 'ì'
  else if c = 'Ò' then 'ò'
  else if c = 'Ù' then 'ù'
  else c

/-- The whitespace characters removed by Python `str.strip()` (ASCII part). -/
def isSpaceChar (c : Char) : Bool :=
  c = ' ' || c = '\t' || c = '\n' || c = '\r' || c = '\x0b' || c = '\x0c'

/-- Python `s.strip()`: remove leading and trailing whitespace. -/
def strip (l : Str) : Str :=
  ((l.dropWhile isSpaceChar).reverse.dropWhile isSpaceChar).reverse

/-- The character-level action of Python `s.replace(a, b)` for
single-character `a`, `b`: map `a` to `b` and fix every other character. -/
def replaceCharFun (a b : Char) (c : Char) : Char :=
  if c = a then b else c

/-- Python `s.replace(a, b)` for single-character `a`, `b`: since the pattern
is a single character, the replacement acts characterwise. -/
def replaceChar (a b : Char) (l : Str) : Str :=
  l.map (replaceCharFun a b)

/-- Embedding of `normalize_conjugation` (lines 76-85): lower-case, strip, then apply the
replacement table à→a, è→e, é→e, ì→i, ò→o, ù→u in that order. -/
def normalize_conjugation (conj : Str) : Str :=
  let result := strip (conj.map pyLowerChar)
  replaceChar 'ù' 'u' (replaceChar 'ò' 'o' (replaceChar 'ì' 'i'
    (replaceChar 'é' 'e' (replaceChar 'è' 'e' (replaceChar 'à' 'a' result)))))

/-- The pointwise form of the six-step replacement chain of
`normalize_conjugation`, applied in the dict's insertion order
à→a, è→e, é→e, ì→i, ò→o, ù→u. -/
def replaceAllChar (c : Char) : Char :=
  let c1 := if c = 'à' then 'a' else c
  let c2 := if c1 = 'è' then 'e' else c1
  let c3 := if c2 = 'é' then 'e' else c2
  let c4 := if c3 = 'ì' then 'i' else c3
  let c5 := if c4 = 'ò' then 'o' else c4
  if c5 = 'ù' then 'u' else c5

/-- The mismatch counter of `compare_with_regular` (e.g. line 125):
`sum(1 for i in range(6) if normalize(actual[i]) != normalize(regular[i]))`.
The guard in `compare_with_regular` ensures indices 0-5 are in bounds for
both lists, so `getD` never hits its default there. -/
def countMismatches (actual regular : List Str) : Nat :=
  ((List.range 6).filter (fun i =>
    decide (normalize_conjugation (actual.getD i []) ≠
            normalize_conjugation (regular.getD i [])))).length

/-- One entry of the irregularities report: the Python dict
`{"mismatches": ..., "actual": ..., "expected": ...}`. -/
structure TenseReport where
  mismatches : Nat
  actual : List Str
  expected : List Str
deriving DecidableEq, Repr

/-- The observed-conjugation mapping passed to `compare_with_regular`: a dict
with optional keys `presente`, `imperfetto`, `futuro`, `passato_remoto`
(these are the only keys `extract_conjugations_from_json` ever produces).
`none` models an absent key. -/
structure Conjugations where
  presente : Option (List Str) := none
  imperfetto : Option (List Str) := none
  futuro : Option (List Str) := none
  passato_remoto : Option (List Str) := none
deriving DecidableEq, Repr

/-- The irregularities report returned by `compare_with_regular`: a dict with
at most the four tense keys; `none` models an absent key. -/
structure Irregularities where
  presente : Option TenseReport := none
  imperfetto : Option TenseReport := none
  futuro : Option TenseReport := none
  passato_remoto : Option TenseReport := none
deriving DecidableEq, Repr

/-- The per-tense block repeated four times in `compare_with_regular`
(lines 120-131 for presente): if the tense is present in the observed data,
the observed list has length ≥ 6 and the generated list has length exactly 6,
count mismatches and report the tense iff the count is positive. -/
def checkTense (observed : Option (List Str)) (regular : List Str) :
    Option TenseReport :=
  match observed with
  | none => none
  | some actual =>
      if 6 ≤ actual.length ∧ regular.length = 6 then
        let m := countMismatches actual regular
        if 0 < m then some ⟨m, actual, regular⟩ else none
      else
        none

/-- Embedding of `compare_with_regular` (lines 114-172). -/
def compare_with_regular (infinitive : Str) (actual_conjugations : Conjugations) :
    Irregularities :=
  let rg := get_verb_root infinitive
  { presente :=
      checkTense actual_conjugations.presente (get_regular_presente rg.1 rg.2)
    imperfetto :=
      checkTense actual_conjugations.imperfetto (get_regular_imperfetto rg.1 rg.2)
    futuro :=
      checkTense actual_conjugations.futuro (get_regular_futuro infinitive)
    passato_remoto :=
      checkTense actual_conjugations.passato_remoto
        (get_regular_passato_remoto rg.1 rg.2) }

/-! ### Helper lemmas on characters -/

theorem toNat_ofNat_of_lt {n : Nat} (h : n < 55296) : (Char.ofNat n).toNat = n := by
  rw [Char.ofNat, dif_pos (Or.inl h)]
  rfl

theorem pyLowerChar_eq_self_of_small {d : Char}
    (h90 : ¬(65 ≤ d.toNat ∧ d.toNat ≤ 90)) (h122 : d.toNat ≤ 122) :
    pyLowerChar d = d := by
  have t : ∀ e : Char, 123 ≤ e.toNat → d ≠ e := fun e he hde => by
    rw [hde] at h122; omega
  rw [pyLowerChar, if_neg h90, if_neg (t ('À') (by decide)), if_neg (t ('È') (by decide)),
    if_neg (t ('É') (by decide)), if_neg (t ('Ì') (by decide)),
    if_neg (t ('Ò') (by decide)), if_neg (t ('Ù') (by decide))]

theorem pyLowerChar_idem (c : Char) : pyLowerChar (pyLowerChar c) = pyLowerChar c := by
  by_cases h : 65 ≤ c.toNat ∧ c.toNat ≤ 90
  · have ht : (Char.ofNat (c.toNat + 32)).toNat = c.toNat + 32 :=
      toNat_ofNat_of_lt (by omega)
    have h1 : pyLowerChar c = Char.ofNat (c.toNat + 32) := by
      rw [pyLowerChar, if_pos h]
    rw [h1, pyLowerChar_eq_self_of_small (by rw [ht]; omega) (by rw [ht]; omega)]
  · by_cases hA : c = 'À'
    · subst hA; decide
    by_cases hE : c = 'È'
    · subst hE; decide
    by_cases hE2 : c = 'É'
    · subst hE2; decide
    by_cases hI : c = 'Ì'
    · subst hI; decide
    by_cases hO : c = 'Ò'
    · subst hO; decide
    by_cases hU : c = 'Ù'
    · subst hU; decide
    have hc : pyLowerChar c = c := by
      rw [pyLowerChar, if_neg h, if_neg hA, if_neg hE, if_neg hE2, if_neg hI,
        if_neg hO, if_neg hU]
    rw [hc]
    exact hc

theorem replaceAllChar_eq_flat (c : Char) :
    replaceAllChar c =
      if c = 'à' then 'a' else if c = 'è' then 'e' else if c = 'é' then 'e'
      else if c = 'ì' then 'i' else if c = 'ò' then 'o' else if c = 'ù' then 'u'
      else c := by
  by_cases h1 : c = 'à'
  · subst h1; decide
  by_cases h2 : c = 'è'
  · subst h2; decide
  by_cases h3 : c = 'é'
  · subst h3; decide
  by_cases h4 : c = 'ì'
  · subst h4; decide
  by_cases h5 : c = 'ò'
  · subst h5; decide
  by_cases h6 : c = 'ù'
  · subst h6; decide
  simp only [replaceAllChar, if_neg h1, if_neg h2, if_neg h3, if_neg h4, if_neg h5,
    if_neg h6]

theorem replaceAllChar_eq_self {c : Char} (h1 : c ≠ 'à') (h2 : c ≠ 'è') (h3 : c ≠ 'é')
    (h4 : c ≠ 'ì') (h5 : c ≠ 'ò') (h6 : c ≠ 'ù') : replaceAllChar c = c := by
  rw [replaceAllChar_eq_flat, if_neg h1, if_neg h2, if_neg h3, if_neg h4, if_neg h5,
    if_neg h6]

theorem pyLowerChar_replaceAllChar_fix {d : Char} (hd : pyLowerChar d = d) :
    pyLowerChar (replaceAllChar d) = replaceAllChar d := by
  by_cases h1 : d = 'à'
  · subst h1; decide
  by_cases h2 : d = 'è'
  · subst h2; decide
  by_cases h3 : d = 'é'
  · subst h3; decide
  by_cases h4 : d = 'ì'
  · subst h4; decide
  by_cases h5 : d = 'ò'
  · subst h5; decide
  by_cases h6 : d = 'ù'
  · subst h6; decide
  rw [replaceAllChar_eq_self h1 h2 h3 h4 h5 h6, hd]

theorem replaceAllChar_idem (c : Char) :
    replaceAllChar (replaceAllChar c) = replaceAllChar c := by
  by_cases h1 : c = 'à'
  · subst h1; decide
  by_cases h2 : c = 'è'
  · subst h2; decide
  by_cases h3 : c = 'é'
  · subst h3; decide
  by_cases h4 : c = 'ì'
  · subst h4; decide
  by_cases h5 : c = 'ò'
  · subst h5; decide
  by_cases h6 : c = 'ù'
  · subst h6; decide
  rw [replaceAllChar_eq_self h1 h2 h3 h4 h5 h6,
    replaceAllChar_eq_self h1 h2 h3 h4 h5 h6]

theorem isSpaceChar_replaceAllChar (c : Char) :
    isSpaceChar (replaceAllChar c) = isSpaceChar c := by
  by_cases h1 : c = 'à'
  · subst h1; decide
  by_cases h2 : c = 'è'
  · subst h2; decide
  by_cases h3 : c = 'é'
  · subst h3; decide
  by_cases h4 : c = 'ì'
  · subst h4; decide
  by_cases h5 : c = 'ò'
  · subst h5; decide
  by_cases h6 : c = 'ù'
  · subst h6; decide
  rw [replaceAllChar_eq_self h1 h2 h3 h4 h5 h6]

/-! ### Helper lemmas on lists and on `strip`/`normalize_conjugation` -/

theorem dropWhile_head_or_nil (p : Char → Bool) (l : Str) :
    l.dropWhile p = [] ∨ ∃ a t, l.dropWhile p = a :: t ∧ p a = false := by
  induction l with
  | nil => exact Or.inl rfl
  | cons c t ih =>
      rw [List.dropWhile_cons]
      by_cases h : p c = true
      · rw [if_pos h]; exact ih
      · rw [if_neg h]
        exact Or.inr ⟨c, t, rfl, by simpa using h⟩

theorem dropWhile_eq_self_of_head (p : Char → Bool) (a : Char) (t : Str)
    (h : p a = false) : (a :: t).dropWhile p = a :: t := by
  rw [List.dropWhile_cons, if_neg (by simp [h])]

theorem dropWhile_idem (p : Char → Bool) (l : Str) :
    (l.dropWhile p).dropWhile p = l.dropWhile p := by
  rcases dropWhile_head_or_nil p l with h | ⟨x, t, hxt, hx⟩
  · rw [h]; rfl
  · rw [hxt]; exact dropWhile_eq_self_of_head p x t hx

theorem strip_dropWhile (m : Str) :
    (strip m).dropWhile isSpaceChar = strip m := by
  rcases dropWhile_head_or_nil isSpaceChar m with h | ⟨x, t, hxt, hx⟩
  · have hnil : strip m = [] := by rw [strip, h]; rfl
    rw [hnil]; rfl
  · have happ : m.dropWhile isSpaceChar =
        strip m ++ ((m.dropWhile isSpaceChar).reverse.takeWhile isSpaceChar).reverse := by
      rw [strip]
      conv_lhs => rw [← List.reverse_reverse (m.dropWhile isSpaceChar)]
      rw [← List.reverse_append, List.takeWhile_append_dropWhile]
    cases hs : strip m with
    | nil => rfl
    | cons y ys =>
        rw [hxt, hs, List.cons_append] at happ
        have hxy : x = y := (List.cons.injEq _ _ _ _).mp happ |>.1
        exact dropWhile_eq_self_of_head isSpaceChar y ys (hxy ▸ hx)

theorem strip_idem (l : Str) : strip (strip l) = strip l := by
  have h1 := strip_dropWhile l
  have h2 : (strip l).reverse.dropWhile isSpaceChar = (strip l).reverse := by
    have hrev : (strip l).reverse =
        (l.dropWhile isSpaceChar).reverse.dropWhile isSpaceChar := by
      rw [strip, List.reverse_reverse]
    rw [hrev, dropWhile_idem]
  have hgoal : strip (strip l) =
      (((strip l).dropWhile isSpaceChar).reverse.dropWhile isSpaceChar).reverse := rfl
  rw [hgoal, h1, h2, List.reverse_reverse]

theorem mem_of_mem_strip {c : Char} {l : Str} (h : c ∈ strip l) : c ∈ l := by
  rw [strip, List.mem_reverse] at h
  have h2 : c ∈ (l.dropWhile isSpaceChar).reverse :=
    (List.dropWhile_sublist isSpaceChar).subset h
  rw [List.mem_reverse] at h2
  exact (List.dropWhile_sublist isSpaceChar).subset h2

theorem strip_map_comm (f : Char → Char)
    (hf : ∀ c, isSpaceChar (f c) = isSpaceChar c) (l : Str) :
    strip (l.map f) = (strip l).map f := by
  have hcomp : (isSpaceChar ∘ f) = isSpaceChar := funext hf
  rw [strip, strip, List.dropWhile_map, hcomp, ← List.map_reverse, List.dropWhile_map,
    hcomp, ← List.map_reverse]

theorem replaceCharFun_eq_self {a b c : Char} (h : c ≠ a) :
    replaceCharFun a b c = c := by
  rw [replaceCharFun, if_neg h]

theorem replaceAllChar_spec (c : Char) :
    replaceAllChar c =
      replaceCharFun 'ù' 'u' (replaceCharFun 'ò' 'o' (replaceCharFun 'ì' 'i'
        (replaceCharFun 'é' 'e' (replaceCharFun 'è' 'e'
          (replaceCharFun 'à' 'a' c))))) := by
  by_cases h1 : c = 'à'
  · subst h1; decide
  by_cases h2 : c = 'è'
  · subst h2; decide
  by_cases h3 : c = 'é'
  · subst h3; decide
  by_cases h4 : c = 'ì'
  · subst h4; decide
  by_cases h5 : c = 'ò'
  · subst h5; decide
  by_cases h6 : c = 'ù'
  · subst h6; decide
  rw [replaceAllChar_eq_self h1 h2 h3 h4 h5 h6, replaceCharFun_eq_self h1,
    replaceCharFun_eq_self h2, replaceCharFun_eq_self h3, replaceCharFun_eq_self h4,
    replaceCharFun_eq_self h5, replaceCharFun_eq_self h6]

theorem normalize_conjugation_eq_map (conj : Str) :
    normalize_conjugation conj = (strip (conj.map pyLowerChar)).map replaceAllChar := by
  rw [normalize_conjugation]
  simp only [replaceChar, List.map_map]
  apply List.map_congr_left
  intro c hc
  simp only [Function.comp_apply]
  rw [← replaceAllChar_spec c]

/-! ### Helper lemmas about suffixes and `get_verb_root` -/

theorem endsWith_iff {l s : Str} : endsWith l s = true ↔ ∃ t, t ++ s = l := by
  rw [endsWith, List.isSuffixOf_iff_suffix]
  exact Iff.rfl

theorem suffix_unique {l s1 s2 : Str} (hlen : s1.length = s2.length)
    (h1 : endsWith l s1 = true) (h2 : endsWith l s2 = true) : s1 = s2 := by
  rcases endsWith_iff.1 h1 with ⟨t, ht⟩
  rcases endsWith_iff.1 h2 with ⟨u, hu⟩
  have he : t ++ s1 = u ++ s2 := ht.trans hu.symm
  have hl : t.length = u.length := by
    have hlen2 := congrArg List.length he
    simp only [List.length_append] at hlen2
    omega
  exact (List.append_inj he hl).2

theorem root_take {infinitive s : Str} (h3 : s.length = 3)
    (h : endsWith infinitive s = true) :
    infinitive.take (infinitive.length - 3) ++ s = infinitive := by
  rcases endsWith_iff.1 h with ⟨t, ht⟩
  subst ht
  have hl : (t ++ s).length - 3 = t.length := by
    rw [List.length_append, h3]
    omega
  rw [hl, List.take_left' rfl]

/-! ### Claims about the normalizer -/

/-- Claim C7: the normalizer maps a surface form by lower-casing, stripping
leading and trailing whitespace, and replacing each accented vowel by its
base letter through the fixed table à→a, è→e, é→e, ì→i, ò→o, ù→u; it is
case- and accent-insensitive, e.g. normalize("PARLÒ") = normalize("parlo"). -/
theorem C7_normalizer_table_and_case (conj : Str) :
    normalize_conjugation conj =
      replaceChar 'ù' 'u' (replaceChar 'ò' 'o' (replaceChar 'ì' 'i'
        (replaceChar 'é' 'e' (replaceChar 'è' 'e' (replaceChar 'à' 'a'
          (strip (conj.map pyLowerChar))))))) ∧
    normalize_conjugation ("à".toList) = ("a".toList) ∧
    normalize_conjugation ("è".toList) = ("e".toList) ∧
    normalize_conjugation ("é".toList) = ("e".toList) ∧
    normalize_conjugation ("ì".toList) = ("i".toList) ∧
    normalize_conjugation ("ò".toList) = ("o".toList) ∧
    normalize_conjugation ("ù".toList) = ("u".toList) ∧
    normalize_conjugation ("  PARLÒ \t".toList) = ("parlo".toList) ∧
    normalize_conjugation ("PARLÒ".toList) = normalize_conjugation ("parlo".toList) :=
  ⟨rfl, by decide, by decide, by decide, by decide, by decide, by decide,
   by decide, by decide⟩

/-- Claim C8: normalization is idempotent:
`normalize(normalize(s)) == normalize(s)` for every string `s`. -/
theorem C8_normalize_conjugation_idempotent (s : Str) :
    normalize_conjugation (normalize_conjugation s) = normalize_conjugation s := by
  have hw : normalize_conjugation s =
      (strip (s.map pyLowerChar)).map replaceAllChar :=
    normalize_conjugation_eq_map s
  have hfix : ∀ c ∈ normalize_conjugation s, pyLowerChar c = c := by
    intro c hc
    rw [hw] at hc
    rcases List.mem_map.1 hc with ⟨d, hd, rfl⟩
    have hd2 : d ∈ s.map pyLowerChar := mem_of_mem_strip hd
    rcases List.mem_map.1 hd2 with ⟨e, he, rfl⟩
    exact pyLowerChar_replaceAllChar_fix (pyLowerChar_idem e)
  have hmapl : (normalize_conjugation s).map pyLowerChar = normalize_conjugation s := by
    conv_rhs => rw [← List.map_id (normalize_conjugation s)]
    exact List.map_congr_left hfix
  rw [normalize_conjugation_eq_map (normalize_conjugation s), hmapl, hw,
    strip_map_comm replaceAllChar isSpaceChar_replaceAllChar, strip_idem, List.map_map]
  apply List.map_congr_left
  intro c hc
  simp only [Function.comp_apply]
  rw [replaceAllChar_idem]

/-! ### Claims about the regular-pattern generators -/

/-- Claim C3: the futuro generator returns exactly 6 forms and never the
empty sequence; the stem is the infinitive minus its final 3 characters plus
"er" when the infinitive ends in "are", otherwise the infinitive minus its
final character; the endings are ò ai à emo ete anno; concretely,
futuro("parlare") = parlerò parlerai parlerà parleremo parlerete
parleranno. -/
theorem C3_futuro_stem_and_forms (infinitive : Str) :
    (get_regular_futuro infinitive).length = 6 ∧
    get_regular_futuro infinitive ≠ [] ∧
    (endsWith infinitive ("are".toList) = true →
      get_regular_futuro infinitive =
        [infinitive.take (infinitive.length - 3) ++ ("er".toList) ++ ("ò".toList),
         infinitive.take (infinitive.length - 3) ++ ("er".toList) ++ ("ai".toList),
         infinitive.take (infinitive.length - 3) ++ ("er".toList) ++ ("à".toList),
         infinitive.take (infinitive.length - 3) ++ ("er".toList) ++ ("emo".toList),
         infinitive.take (infinitive.length - 3) ++ ("er".toList) ++ ("ete".toList),
         infinitive.take (infinitive.length - 3) ++ ("er".toList) ++ ("anno".toList)]) ∧
    (endsWith infinitive ("are".toList) = false →
      get_regular_futuro infinitive =
        [infinitive.dropLast ++ ("ò".toList), infinitive.dropLast ++ ("ai".toList),
         infinitive.dropLast ++ ("à".toList), infinitive.dropLast ++ ("emo".toList),
         infinitive.dropLast ++ ("ete".toList),
         infinitive.dropLast ++ ("anno".toList)]) ∧
    get_regular_futuro ("parlare".toList) =
      [("parlerò".toList), ("parlerai".toList), ("parlerà".toList),
       ("parleremo".toList), ("parlerete".toList), ("parleranno".toList)] := by
  refine ⟨rfl, ?_, ?_, ?_, by decide⟩
  · have h6 : (get_regular_futuro infinitive).length = 6 := rfl
    intro h
    rw [h] at h6
    exact absurd h6 (by decide)
  · intro h
    rw [get_regular_futuro, if_pos h]
  · intro h
    rw [get_regular_futuro, if_neg (Bool.eq_false_iff.1 h)]

theorem C3_futuro_stem_and_forms_witness :
    get_regular_futuro ("parlare".toList) =
      [("parlare".toList).take (("parlare".toList).length - 3) ++ ("er".toList) ++ ("ò".toList),
       ("parlare".toList).take (("parlare".toList).length - 3) ++ ("er".toList) ++ ("ai".toList),
       ("parlare".toList).take (("parlare".toList).length - 3) ++ ("er".toList) ++ ("à".toList),
       ("parlare".toList).take (("parlare".toList).length - 3) ++ ("er".toList) ++ ("emo".toList),
       ("parlare".toList).take (("parlare".toList).length - 3) ++ ("er".toList) ++ ("ete".toList),
       ("parlare".toList).take (("parlare".toList).length - 3) ++ ("er".toList) ++ ("anno".toList)] :=
  (C3_futuro_stem_and_forms ("parlare".toList)).2.2.1 (by decide)

/-- Claim C4: for every root and group in ARE/ERE/IRE, presente and
imperfetto return exactly 6 non-empty strings, each prefixed by the root,
with the fixed endings (presente ARE o i a iamo ate ano; ERE o i e iamo ete
ono; IRE o i e iamo ite ono; imperfetto ARE avo avi ava avamo avate avano;
ERE evo evi eva evamo evate evano; IRE ivo ivi iva ivamo ivate ivano). -/
theorem C4_presente_imperfetto_endings (root : Str) :
    get_regular_presente root Group.ARE =
      [root ++ ("o".toList), root ++ ("i".toList), root ++ ("a".toList),
       root ++ ("iamo".toList), root ++ ("ate".toList), root ++ ("ano".toList)] ∧
    get_regular_presente root Group.ERE =
      [root ++ ("o".toList), root ++ ("i".toList), root ++ ("e".toList),
       root ++ ("iamo".toList), root ++ ("ete".toList), root ++ ("ono".toList)] ∧
    get_regular_presente root Group.IRE =
      [root ++ ("o".toList), root ++ ("i".toList), root ++ ("e".toList),
       root ++ ("iamo".toList), root ++ ("ite".toList), root ++ ("ono".toList)] ∧
    get_regular_imperfetto root Group.ARE =
      [root ++ ("avo".toList), root ++ ("avi".toList), root ++ ("ava".toList),
       root ++ ("avamo".toList), root ++ ("avate".toList), root ++ ("avano".toList)] ∧
    get_regular_imperfetto root Group.ERE =
      [root ++ ("evo".toList), root ++ ("evi".toList), root ++ ("eva".toList),
       root ++ ("evamo".toList), root ++ ("evate".toList), root ++ ("evano".toList)] ∧
    get_regular_imperfetto root Group.IRE =
      [root ++ ("ivo".toList), root ++ ("ivi".toList), root ++ ("iva".toList),
       root ++ ("ivamo".toList), root ++ ("ivate".toList), root ++ ("ivano".toList)] ∧
    (∀ g : Group, g ≠ Group.OTHER →
      (get_regular_presente root g).length = 6 ∧
      (get_regular_imperfetto root g).length = 6 ∧
      (∀ f ∈ get_regular_presente root g, root <+: f ∧ f ≠ []) ∧
      (∀ f ∈ get_regular_imperfetto root g, root <+: f ∧ f ≠ [])) := by
  have hp : ∀ x : String, x.toList ≠ [] →
      root <+: root ++ x.toList ∧ root ++ x.toList ≠ [] :=
    fun x hx => ⟨⟨x.toList, rfl⟩, fun h => hx (List.append_eq_nil.1 h).2⟩
  refine ⟨rfl, rfl, rfl, rfl, rfl, rfl, ?_⟩
  intro g hg
  cases g with
  | OTHER => exact absurd rfl hg
  | ARE =>
      refine ⟨rfl, rfl, ?_, ?_⟩ <;>
        (intro f hf
         simp only [get_regular_presente, get_regular_imperfetto, List.mem_cons,
           List.not_mem_nil, or_false] at hf
         rcases hf with rfl | rfl | rfl | rfl | rfl | rfl <;> exact hp _ (by decide))
  | ERE =>
      refine ⟨rfl, rfl, ?_, ?_⟩ <;>
        (intro f hf
         simp only [get_regular_presente, get_regular_imperfetto, List.mem_cons,
           List.not_mem_nil, or_false] at hf
         rcases hf with rfl | rfl | rfl | rfl | rfl | rfl <;> exact hp _ (by decide))
  | IRE =>
      refine ⟨rfl, rfl, ?_, ?_⟩ <;>
        (intro f hf
         simp only [get_regular_presente, get_regular_imperfetto, List.mem_cons,
           List.not_mem_nil, or_false] at hf
         rcases hf with rfl | rfl | rfl | rfl | rfl | rfl <;> exact hp _ (by decide))

theorem C4_presente_imperfetto_endings_witness :
    (get_regular_presente ("parl".toList) Group.ARE).length = 6 ∧
    (get_regular_imperfetto ("parl".toList) Group.ARE).length = 6 ∧
    (∀ f ∈ get_regular_presente ("parl".toList) Group.ARE,
      ("parl".toList) <+: f ∧ f ≠ []) ∧
    (∀ f ∈ get_regular_imperfetto ("parl".toList) Group.ARE,
      ("parl".toList) <+: f ∧ f ≠ []) :=
  (C4_presente_imperfetto_endings ("parl".toList)).2.2.2.2.2.2 Group.ARE (by decide)

/-- Claim C5: passato remoto endings are ARE ai asti ò ammo aste arono;
ERE (single conventional variant) ei esti é emmo este erono; IRE ii isti ì
immo iste irono; for group OTHER presente, imperfetto and passato remoto
return the empty sequence while futuro still returns 6 entries. -/
theorem C5_passato_remoto_and_other (root : Str) :
    get_regular_passato_remoto root Group.ARE =
      [root ++ ("ai".toList), root ++ ("asti".toList), root ++ ("ò".toList),
       root ++ ("ammo".toList), root ++ ("aste".toList), root ++ ("arono".toList)] ∧
    get_regular_passato_remoto root Group.ERE =
      [root ++ ("ei".toList), root ++ ("esti".toList), root ++ ("é".toList),
       root ++ ("emmo".toList), root ++ ("este".toList), root ++ ("erono".toList)] ∧
    get_regular_passato_remoto root Group.IRE =
      [root ++ ("ii".toList), root ++ ("isti".toList), root ++ ("ì".toList),
       root ++ ("immo".toList), root ++ ("iste".toList), root ++ ("irono".toList)] ∧
    get_regular_presente root Group.OTHER = [] ∧
    get_regular_imperfetto root Group.OTHER = [] ∧
    get_regular_passato_remoto root Group.OTHER = [] ∧
    (∀ infinitive : Str, (get_regular_futuro infinitive).length = 6) :=
  ⟨rfl, rfl, rfl, rfl, rfl, rfl, fun _ => rfl⟩

/-- Claim C6: for every infinitive ending in "are"/"ere"/"ire",
get_verb_root returns a (root, group) pair with root ++ suffix = infinitive
and the group matching the suffix; for every other infinitive the root is
the infinitive itself and the group is OTHER. -/
theorem C6_get_verb_root_round_trip (infinitive : Str) :
    (endsWith infinitive ("are".toList) = true →
      (get_verb_root infinitive).2 = Group.ARE ∧
      (get_verb_root infinitive).1 ++ ("are".toList) = infinitive) ∧
    (endsWith infinitive ("ere".toList) = true →
      (get_verb_root infinitive).2 = Group.ERE ∧
      (get_verb_root infinitive).1 ++ ("ere".toList) = infinitive) ∧
    (endsWith infinitive ("ire".toList) = true →
      (get_verb_root infinitive).2 = Group.IRE ∧
      (get_verb_root infinitive).1 ++ ("ire".toList) = infinitive) ∧
    (endsWith infinitive ("are".toList) = false →
      endsWith infinitive ("ere".toList) = false →
      endsWith infinitive ("ire".toList) = false →
      get_verb_root infinitive = (infinitive, Group.OTHER)) := by
  refine ⟨?_, ?_, ?_, ?_⟩
  · intro h
    have hr : get_verb_root infinitive =
        (infinitive.take (infinitive.length - 3), Group.ARE) := by
      rw [get_verb_root, if_pos h]
    rw [hr]
    exact ⟨rfl, root_take (by decide) h⟩
  · intro h
    have hA : endsWith infinitive ("are".toList) = false := by
      cases hc : endsWith infinitive ("are".toList) with
      | false => rfl
      | true => exact absurd (suffix_unique (by decide) hc h) (by decide)
    have hr : get_verb_root infinitive =
        (infinitive.take (infinitive.length - 3), Group.ERE) := by
      rw [get_verb_root, if_neg (Bool.eq_false_iff.1 hA), if_pos h]
    rw [hr]
    exact ⟨rfl, root_take (by decide) h⟩
  · intro h
    have hA : endsWith infinitive ("are".toList) = false := by
      cases hc : endsWith infinitive ("are".toList) with
      | false => rfl
      | true => exact absurd (suffix_unique (by decide) hc h) (by decide)
    have hE : endsWith infinitive ("ere".toList) = false := by
      cases hc : endsWith infinitive ("ere".toList) with
      | false => rfl
      | true => exact absurd (suffix_unique (by decide) hc h) (by decide)
    have hr : get_verb_root infinitive =
        (infinitive.take (infinitive.length - 3), Group.IRE) := by
      rw [get_verb_root, if_neg (Bool.eq_false_iff.1 hA), if_neg (Bool.eq_false_iff.1 hE), if_pos h]
    rw [hr]
    exact ⟨rfl, root_take (by decide) h⟩
  · intro h1 h2 h3
    rw [get_verb_root, if_neg (Bool.eq_false_iff.1 h1), if_neg (Bool.eq_false_iff.1 h2),
      if_neg (Bool.eq_false_iff.1 h3)]

theorem C6_get_verb_root_round_trip_witness :
    (get_verb_root ("parlare".toList)).2 = Group.ARE ∧
    (get_verb_root ("parlare".toList)).1 ++ ("are".toList) = ("parlare".toList) :=
  (C6_get_verb_root_round_trip ("parlare".toList)).1 (by decide)

/-- Claim C9: for "andare" with observed presente vado vai va andiamo andate
vanno, the canonical presente is ando andi anda andiamo andate andano, the
normalized comparison mismatches exactly at positions 0, 1, 2, 5, and the
report has a presente entry with mismatch count 4. -/
theorem C9_andare_presente_concrete :
    get_regular_presente (get_verb_root ("andare".toList)).1
        (get_verb_root ("andare".toList)).2 =
      [("ando".toList), ("andi".toList), ("anda".toList),
       ("andiamo".toList), ("andate".toList), ("andano".toList)] ∧
    ((List.range 6).filter (fun i =>
      decide (normalize_conjugation ([("vado".toList), ("vai".toList), ("va".toList),
          ("andiamo".toList), ("andate".toList), ("vanno".toList)].getD i []) ≠
        normalize_conjugation ((get_regular_presente (get_verb_root ("andare".toList)).1
          (get_verb_root ("andare".toList)).2).getD i [])))) = [0, 1, 2, 5] ∧
    (compare_with_regular ("andare".toList)
        { presente := some [("vado".toList), ("vai".toList), ("va".toList),
            ("andiamo".toList), ("andate".toList), ("vanno".toList)] }).presente =
      some ⟨4,
        [("vado".toList), ("vai".toList), ("va".toList), ("andiamo".toList),
         ("andate".toList), ("vanno".toList)],
        [("ando".toList), ("andi".toList), ("anda".toList), ("andiamo".toList),
         ("andate".toList), ("andano".toList)]⟩ :=
  ⟨by decide, by decide, by decide⟩

/-! ### Helper lemmas about the mismatch counter and `checkTense` -/

theorem countMismatches_pos_iff (actual regular : List Str) :
    0 < countMismatches actual regular ↔
      ∃ i < 6, normalize_conjugation (actual.getD i []) ≠
        normalize_conjugation (regular.getD i []) := by
  rw [countMismatches, List.length_pos_iff_exists_mem]
  constructor
  · rintro ⟨i, hi⟩
    rw [List.mem_filter, List.mem_range] at hi
    exact ⟨i, hi.1, of_decide_eq_true hi.2⟩
  · rintro ⟨i, hi6, hne⟩
    exact ⟨i, List.mem_filter.2 ⟨List.mem_range.2 hi6, decide_eq_true hne⟩⟩

theorem countMismatches_le_six (actual regular : List Str) :
    countMismatches actual regular ≤ 6 := by
  rw [countMismatches]
  simpa using List.length_filter_le _ (List.range 6)

theorem countMismatches_take_six (actual regular : List Str) :
    countMismatches (actual.take 6) regular = countMismatches actual regular := by
  rw [countMismatches, countMismatches]
  refine congrArg List.length (List.filter_congr ?_)
  intro i hi
  rw [List.mem_range] at hi
  have hgd : (actual.take 6).getD i [] = actual.getD i [] := by
    rw [List.getD_eq_getElem?_getD, List.getD_eq_getElem?_getD, List.getElem?_take,
      if_pos hi]
  rw [hgd]

theorem checkTense_some (a : List Str) (regular : List Str) :
    checkTense (some a) regular =
      if 6 ≤ a.length ∧ regular.length = 6 then
        (if 0 < countMismatches a regular then
          some ⟨countMismatches a regular, a, regular⟩ else none)
      else none := rfl

theorem checkTense_ne_none_iff (observed : Option (List Str)) (regular : List Str) :
    checkTense observed regular ≠ none ↔
      ∃ actual, observed = some actual ∧ 6 ≤ actual.length ∧ regular.length = 6 ∧
        0 < countMismatches actual regular := by
  cases observed with
  | none =>
      constructor
      · intro h; exact absurd rfl h
      · rintro ⟨a, ha, -⟩; exact Option.noConfusion ha
  | some a =>
      rw [checkTense_some]
      split_ifs with h1 h2
      · constructor
        · intro _; exact ⟨a, rfl, h1.1, h1.2, h2⟩
        · intro _; exact Option.some_ne_none _
      · constructor
        · intro h; exact absurd rfl h
        · rintro ⟨b, hb, -, -, hp⟩
          injection hb with hab
          subst hab
          exact absurd hp h2
      · constructor
        · intro h; exact absurd rfl h
        · rintro ⟨b, hb, h6, hr, -⟩
          injection hb with hab
          subst hab
          exact absurd ⟨h6, hr⟩ h1

theorem checkTense_eq_some (observed : Option (List Str)) (regular : List Str)
    (entry : TenseReport) (h : checkTense observed regular = some entry) :
    ∃ actual, observed = some actual ∧ 6 ≤ actual.length ∧ regular.length = 6 ∧
      entry.mismatches = countMismatches actual regular ∧
      entry.actual = actual ∧ entry.expected = regular ∧
      0 < entry.mismatches := by
  cases observed with
  | none => exact Option.noConfusion h
  | some a =>
      rw [checkTense_some] at h
      split_ifs at h with h1 h2
      · injection h with he
        subst he
        exact ⟨a, rfl, h1.1, h1.2, rfl, rfl, rfl, h2⟩

theorem checkTense_reg_not_six (observed : Option (List Str)) (regular : List Str)
    (h : regular.length ≠ 6) : checkTense observed regular = none := by
  cases observed with
  | none => rfl
  | some a => rw [checkTense_some, if_neg (fun hc => h hc.2)]

theorem get_verb_root_other (infinitive : Str)
    (h1 : endsWith infinitive ("are".toList) = false)
    (h2 : endsWith infinitive ("ere".toList) = false)
    (h3 : endsWith infinitive ("ire".toList) = false) :
    get_verb_root infinitive = (infinitive, Group.OTHER) := by
  rw [get_verb_root, if_neg (Bool.eq_false_iff.1 h1), if_neg (Bool.eq_false_iff.1 h2),
    if_neg (Bool.eq_false_iff.1 h3)]

/-! ### Claims about `compare_with_regular` -/

/-- Claim C1: a tense appears in the report iff it is one of the four checked
tenses, is present in the observed data, the observed sequence has at least
6 entries, the generated canonical sequence has exactly 6 entries, and some
position 0-5 differs after normalization; otherwise (too little data, group
OTHER, or zero mismatches) the tense is silently absent from the report. -/
theorem C1_report_membership_iff (infinitive : Str) (acts : Conjugations) :
    ((compare_with_regular infinitive acts).presente ≠ none ↔
      ∃ actual, acts.presente = some actual ∧ 6 ≤ actual.length ∧
        (get_regular_presente (get_verb_root infinitive).1
          (get_verb_root infinitive).2).length = 6 ∧
        ∃ i < 6, normalize_conjugation (actual.getD i []) ≠
          normalize_conjugation ((get_regular_presente (get_verb_root infinitive).1
            (get_verb_root infinitive).2).getD i [])) ∧
    ((compare_with_regular infinitive acts).imperfetto ≠ none ↔
      ∃ actual, acts.imperfetto = some actual ∧ 6 ≤ actual.length ∧
        (get_regular_imperfetto (get_verb_root infinitive).1
          (get_verb_root infinitive).2).length = 6 ∧
        ∃ i < 6, normalize_conjugation (actual.getD i []) ≠
          normalize_conjugation ((get_regular_imperfetto (get_verb_root infinitive).1
            (get_verb_root infinitive).2).getD i [])) ∧
    ((compare_with_regular infinitive acts).futuro ≠ none ↔
      ∃ actual, acts.futuro = some actual ∧ 6 ≤ actual.length ∧
        (get_regular_futuro infinitive).length = 6 ∧
        ∃ i < 6, normalize_conjugation (actual.getD i []) ≠
          normalize_conjugation ((get_regular_futuro infinitive).getD i [])) ∧
    ((compare_with_regular infinitive acts).passato_remoto ≠ none ↔
      ∃ actual, acts.passato_remoto = some actual ∧ 6 ≤ actual.length ∧
        (get_regular_passato_remoto (get_verb_root infinitive).1
          (get_verb_root infinitive).2).length = 6 ∧
        ∃ i < 6, normalize_conjugation (actual.getD i []) ≠
          normalize_conjugation ((get_regular_passato_remoto (get_verb_root infinitive).1
            (get_verb_root infinitive).2).getD i [])) := by
  have hc : ∀ (observed : Option (List Str)) (regular : List Str),
      checkTense observed regular ≠ none ↔
        ∃ actual, observed = some actual ∧ 6 ≤ actual.length ∧ regular.length = 6 ∧
          ∃ i < 6, normalize_conjugation (actual.getD i []) ≠
            normalize_conjugation (regular.getD i []) := by
    intro observed regular
    rw [checkTense_ne_none_iff]
    constructor
    · rintro ⟨a, ha, h6, hr, hp⟩
      exact ⟨a, ha, h6, hr, (countMismatches_pos_iff a regular).1 hp⟩
    · rintro ⟨a, ha, h6, hr, hp⟩
      exact ⟨a, ha, h6, hr, (countMismatches_pos_iff a regular).2 hp⟩
  exact ⟨hc acts.presente _, hc acts.imperfetto _, hc acts.futuro _,
    hc acts.passato_remoto _⟩

/-- Claim C2: a reported entry stores the exact number of normalized
mismatches among positions 0-5 (between 1 and 6), the full observed sequence
and the full 6-entry canonical sequence; positions beyond index 5 never
affect the count. -/
theorem C2_report_entry_contents (infinitive : Str) (acts : Conjugations) :
    (∀ entry, (compare_with_regular infinitive acts).presente = some entry →
      ∃ actual, acts.presente = some actual ∧ entry.actual = actual ∧
        entry.expected = get_regular_presente (get_verb_root infinitive).1
          (get_verb_root infinitive).2 ∧
        entry.expected.length = 6 ∧
        entry.mismatches = countMismatches actual entry.expected ∧
        1 ≤ entry.mismatches ∧ entry.mismatches ≤ 6 ∧
        countMismatches actual entry.expected =
          countMismatches (actual.take 6) entry.expected) ∧
    (∀ entry, (compare_with_regular infinitive acts).imperfetto = some entry →
      ∃ actual, acts.imperfetto = some actual ∧ entry.actual = actual ∧
        entry.expected = get_regular_imperfetto (get_verb_root infinitive).1
          (get_verb_root infinitive).2 ∧
        entry.expected.length = 6 ∧
        entry.mismatches = countMismatches actual entry.expected ∧
        1 ≤ entry.mismatches ∧ entry.mismatches ≤ 6 ∧
        countMismatches actual entry.expected =
          countMismatches (actual.take 6) entry.expected) ∧
    (∀ entry, (compare_with_regular infinitive acts).futuro = some entry →
      ∃ actual, acts.futuro = some actual ∧ entry.actual = actual ∧
        entry.expected = get_regular_futuro infinitive ∧
        entry.expected.length = 6 ∧
        entry.mismatches = countMismatches actual entry.expected ∧
        1 ≤ entry.mismatches ∧ entry.mismatches ≤ 6 ∧
        countMismatches actual entry.expected =
          countMismatches (actual.take 6) entry.expected) ∧
    (∀ entry, (compare_with_regular infinitive acts).passato_remoto = some entry →
      ∃ actual, acts.passato_remoto = some actual ∧ entry.actual = actual ∧
        entry.expected = get_regular_passato_remoto (get_verb_root infinitive).1
          (get_verb_root infinitive).2 ∧
        entry.expected.length = 6 ∧
        entry.mismatches = countMismatches actual entry.expected ∧
        1 ≤ entry.mismatches ∧ entry.mismatches ≤ 6 ∧
        countMismatches actual entry.expected =
          countMismatches (actual.take 6) entry.expected) := by
  have hgen : ∀ (observed : Option (List Str)) (regular : List Str)
      (entry : TenseReport), checkTense observed regular = some entry →
      ∃ actual, observed = some actual ∧ entry.actual = actual ∧
        entry.expected = regular ∧ entry.expected.length = 6 ∧
        entry.mismatches = countMismatches actual entry.expected ∧
        1 ≤ entry.mismatches ∧ entry.mismatches ≤ 6 ∧
        countMismatches actual entry.expected =
          countMismatches (actual.take 6) entry.expected := by
    intro observed regular entry h
    rcases checkTense_eq_some observed regular entry h with
      ⟨a, ha, h6, hr, hm, hact, hexp, hpos⟩
    refine ⟨a, ha, hact, hexp, ?_, ?_, hpos, ?_, ?_⟩
    · rw [hexp]; exact hr
    · rw [hexp]; exact hm
    · rw [hm]; exact countMismatches_le_six a regular
    · exact (countMismatches_take_six a entry.expected).symm
  exact ⟨fun entry h => hgen acts.presente _ entry h,
    fun entry h => hgen acts.imperfetto _ entry h,
    fun entry h => hgen acts.futuro _ entry h,
    fun entry h => hgen acts.passato_remoto _ entry h⟩

theorem C2_report_entry_contents_witness :
    ∃ actual,
      ({ presente := some [("vado".toList), ("vai".toList), ("va".toList),
          ("andiamo".toList), ("andate".toList), ("vanno".toList)] } :
        Conjugations).presente = some actual ∧
      (⟨4, [("vado".toList), ("vai".toList), ("va".toList), ("andiamo".toList),
          ("andate".toList), ("vanno".toList)],
        [("ando".toList), ("andi".toList), ("anda".toList), ("andiamo".toList),
         ("andate".toList), ("andano".toList)]⟩ : TenseReport).actual = actual ∧
      (⟨4, [("vado".toList), ("vai".toList), ("va".toList), ("andiamo".toList),
          ("andate".toList), ("vanno".toList)],
        [("ando".toList), ("andi".toList), ("anda".toList), ("andiamo".toList),
         ("andate".toList), ("andano".toList)]⟩ : TenseReport).expected =
        get_regular_presente (get_verb_root ("andare".toList)).1
          (get_verb_root ("andare".toList)).2 ∧
      (⟨4, [("vado".toList), ("vai".toList), ("va".toList), ("andiamo".toList),
          ("andate".toList), ("vanno".toList)],
        [("ando".toList), ("andi".toList), ("anda".toList), ("andiamo".toList),
         ("andate".toList), ("andano".toList)]⟩ : TenseReport).expected.length = 6 ∧
      (⟨4, [("vado".toList), ("vai".toList), ("va".toList), ("andiamo".toList),
          ("andate".toList), ("vanno".toList)],
        [("ando".toList), ("andi".toList), ("anda".toList), ("andiamo".toList),
         ("andate".toList), ("andano".toList)]⟩ : TenseReport).mismatches =
        countMismatches actual
          (⟨4, [("vado".toList), ("vai".toList), ("va".toList), ("andiamo".toList),
              ("andate".toList), ("vanno".toList)],
            [("ando".toList), ("andi".toList), ("anda".toList), ("andiamo".toList),
             ("andate".toList), ("andano".toList)]⟩ : TenseReport).expected ∧
      1 ≤ (⟨4, [("vado".toList), ("vai".toList), ("va".toList), ("andiamo".toList),
          ("andate".toList), ("vanno".toList)],
        [("ando".toList), ("andi".toList), ("anda".toList), ("andiamo".toList),
         ("andate".toList), ("andano".toList)]⟩ : TenseReport).mismatches ∧
      (⟨4, [("vado".toList), ("vai".toList), ("va".toList), ("andiamo".toList),
          ("andate".toList), ("vanno".toList)],
        [("ando".toList), ("andi".toList), ("anda".toList), ("andiamo".toList),
         ("andate".toList), ("andano".toList)]⟩ : TenseReport).mismatches ≤ 6 ∧
      countMismatches actual
        (⟨4, [("vado".toList), ("vai".toList), ("va".toList), ("andiamo".toList),
            ("andate".toList), ("vanno".toList)],
          [("ando".toList), ("andi".toList), ("anda".toList), ("andiamo".toList),
           ("andate".toList), ("andano".toList)]⟩ : TenseReport).expected =
        countMismatches (actual.take 6)
          (⟨4, [("vado".toList), ("vai".toList), ("va".toList), ("andiamo".toList),
              ("andate".toList), ("vanno".toList)],
            [("ando".toList), ("andi".toList), ("anda".toList), ("andiamo".toList),
             ("andate".toList), ("andano".toList)]⟩ : TenseReport).expected :=
  (C2_report_entry_contents ("andare".toList)
    { presente := some [("vado".toList), ("vai".toList), ("va".toList),
        ("andiamo".toList), ("andate".toList), ("vanno".toList)] }).1
    ⟨4, [("vado".toList), ("vai".toList), ("va".toList), ("andiamo".toList),
        ("andate".toList), ("vanno".toList)],
      [("ando".toList), ("andi".toList), ("anda".toList), ("andiamo".toList),
       ("andate".toList), ("andano".toList)]⟩ (by decide)

/-- Claim C10: for every string not ending in are/ere/ire (including the
empty string and strings shorter than 3 characters) the analysis is total:
the group is OTHER with root the whole string, presente, imperfetto and
passato remoto are never reported, while futuro is still generated (for the
empty string the six bare endings) and compared whenever at least 6 observed
futuro forms exist. -/
theorem C10_other_group_totality (infinitive : Str) (acts : Conjugations)
    (h1 : endsWith infinitive ("are".toList) = false)
    (h2 : endsWith infinitive ("ere".toList) = false)
    (h3 : endsWith infinitive ("ire".toList) = false) :
    get_verb_root infinitive = (infinitive, Group.OTHER) ∧
    (compare_with_regular infinitive acts).presente = none ∧
    (compare_with_regular infinitive acts).imperfetto = none ∧
    (compare_with_regular infinitive acts).passato_remoto = none ∧
    ((compare_with_regular infinitive acts).futuro ≠ none ↔
      ∃ actual, acts.futuro = some actual ∧ 6 ≤ actual.length ∧
        0 < countMismatches actual (get_regular_futuro infinitive)) ∧
    get_regular_futuro [] =
      [("ò".toList), ("ai".toList), ("à".toList),
       ("emo".toList), ("ete".toList), ("anno".toList)] := by
  have hg : get_verb_root infinitive = (infinitive, Group.OTHER) :=
    get_verb_root_other infinitive h1 h2 h3
  have hpres : get_regular_presente (get_verb_root infinitive).1
      (get_verb_root infinitive).2 = [] := by rw [hg]; rfl
  have himp : get_regular_imperfetto (get_verb_root infinitive).1
      (get_verb_root infinitive).2 = [] := by rw [hg]; rfl
  have hpas : get_regular_passato_remoto (get_verb_root infinitive).1
      (get_verb_root infinitive).2 = [] := by rw [hg]; rfl
  refine ⟨hg, ?_, ?_, ?_, ?_, by decide⟩
  · show checkTense acts.presente (get_regular_presente (get_verb_root infinitive).1
      (get_verb_root infinitive).2) = none
    rw [hpres]
    exact checkTense_reg_not_six _ _ (by decide)
  · show checkTense acts.imperfetto (get_regular_imperfetto (get_verb_root infinitive).1
      (get_verb_root infinitive).2) = none
    rw [himp]
    exact checkTense_reg_not_six _ _ (by decide)
  · show checkTense acts.passato_remoto
      (get_regular_passato_remoto (get_verb_root infinitive).1
        (get_verb_root infinitive).2) = none
    rw [hpas]
    exact checkTense_reg_not_six _ _ (by decide)
  · rw [show (compare_with_regular infinitive acts).futuro =
        checkTense acts.futuro (get_regular_futuro infinitive) from rfl,
      checkTense_ne_none_iff]
    constructor
    · rintro ⟨a, ha, h6, -, hp⟩
      exact ⟨a, ha, h6, hp⟩
    · rintro ⟨a, ha, h6, hp⟩
      exact ⟨a, ha, h6, rfl, hp⟩

theorem C10_other_group_totality_witness :
    get_verb_root ("xyz".toList) = (("xyz".toList), Group.OTHER) ∧
    (compare_with_regular ("xyz".toList) ({} : Conjugations)).presente = none ∧
    (compare_with_regular ("xyz".toList) ({} : Conjugations)).imperfetto = none ∧
    (compare_with_regular ("xyz".toList) ({} : Conjugations)).passato_remoto = none ∧
    ((compare_with_regular ("xyz".toList) ({} : Conjugations)).futuro ≠ none ↔
      ∃ actual, ({} : Conjugations).futuro = some actual ∧ 6 ≤ actual.length ∧
        0 < countMismatches actual (get_regular_futuro ("xyz".toList))) ∧
    get_regular_futuro [] =
      [("ò".toList), ("ai".toList), ("à".toList),
       ("emo".toList), ("ete".toList), ("anno".toList)] :=
  C10_other_group_totality ("xyz".toList) ({} : Conjugations)
    (by decide) (by decide) (by decide)

end Verbo
